import Mathlib

/-!
# A verification model of qtpy (`src/qtpy/__init__.py`)

This file embeds the core of the qtpy shim in Lean:

* the binding-resolution stage (`__init__.py` lines 256-283): the spyder
  override, the `auto` branch with its loaded-module scan and its
  `find_spec` probing loop, and the invalid-name check;
* the cross-platform config store: `get_env`/`set_env` on posix
  (the `~/.config/plasma-workspace/env/QtEnvironment.sh` file of
  `export KEY=value` lines, lines 111-151) and on nt (registry via
  `setx`, lines 80-101), plus the file parse performed at module
  initialization (lines 121-129);
* the `scaled` geometry transform (lines 426-465) together with the
  `QT_SCALE` auto-resolution cache (lines 429-443).

Modelling conventions:

* Python `str` is embedded as `List Char` (`PyStr`), because the claims
  are about the character-level behaviour of `startswith`, `strip`,
  `split("=")` and `lower`; these Python methods are re-implemented
  below as structurally recursive Lean functions over `List Char`.
* Python floats are IEEE-754 binary64 values, embedded as the exact
  rational value of the float; every arithmetic operation the program
  performs on floats is rounded back to binary64 by `fl64`
  (round-to-nearest, ties-to-even), so e.g. adding
  `sys.float_info.epsilon = 2 ^ (-52)` to a float of magnitude `≥ 2`
  is absorbed, exactly as in the program.
* Fallible Python code (a raised exception) is embedded as `Option` /
  `Except`: `none` / `Except.error` marks the raise.
-/

/-- Python `str` values, embedded as their list of characters. -/
abbrev PyStr := List Char

/-- A Lean string literal viewed as a `PyStr`. -/
def str (s : String) : PyStr := s.data

/-- Python `str.lower()` (only ASCII letters occur in the modelled data). -/
def pyLower (s : PyStr) : PyStr := s.map Char.toLower

/-- Python `str.strip()`: remove leading and trailing whitespace. -/
def pyStrip (s : PyStr) : PyStr :=
  ((s.dropWhile Char.isWhitespace).reverse.dropWhile Char.isWhitespace).reverse

/-- Python `str.split("=")`: split on every occurrence of `'='`.
`splitEq "a=b" = ["a","b"]`, `splitEq "ab" = ["ab"]`, `splitEq "=" = ["",""]`. -/
def splitEq : PyStr → List PyStr
  | [] => [[]]
  | c :: cs =>
    let rest := splitEq cs
    if c = '=' then [] :: rest
    else
      match rest with
      | t :: ts => (c :: t) :: ts
      | [] => [[c]]

/-! ## Binding resolution (`__init__.py` lines 256-283)

`API_NAMES = {'pyqt5': 'PyQt5', 'pyside2': 'PySide2', 'pyqt6': 'PyQt6',
'pyside6': 'PySide6'}`; `modules = list(API_NAMES.values())` is the fixed
priority order.  A `World` abstracts the Python process state the
resolver consults: `loaded b` is `moduleName b in sys.modules` and
`importable b` is `importlib.util.find_spec(moduleName b) is not None`. -/

/-- The four binding candidates, in the fixed priority order. -/
inductive Binding
  | pyqt5
  | pyside2
  | pyqt6
  | pyside6
deriving DecidableEq

/-- Display name of a candidate (a value of `API_NAMES`). -/
def moduleName : Binding → PyStr
  | .pyqt5 => str "PyQt5"
  | .pyside2 => str "PySide2"
  | .pyqt6 => str "PyQt6"
  | .pyside6 => str "PySide6"

/-- Lower-case api name of a candidate (a key of `API_NAMES`);
this is `module.lower()` as computed at lines 269 and 274. -/
def apiKey : Binding → PyStr
  | .pyqt5 => str "pyqt5"
  | .pyside2 => str "pyside2"
  | .pyqt6 => str "pyqt6"
  | .pyside6 => str "pyside6"

/-- `modules = list(API_NAMES.values())` (line 258), in priority order. -/
def modules : List Binding := [.pyqt5, .pyside2, .pyqt6, .pyside6]

/-- `list(API_NAMES.keys()) + list(API_NAMES.values())`, the membership
test of line 280.  (The capitalized entries are unreachable for a
lower-cased `API`, but they are part of the list the code builds.) -/
def validNames : List PyStr :=
  [str "pyqt5", str "pyside2", str "pyqt6", str "pyside6",
   str "PyQt5", str "PySide2", str "PyQt6", str "PySide6"]

/-- The process state the resolver consults. -/
structure World where
  loaded : Binding → Bool
  importable : Binding → Bool

/-- The two fatal resolution errors of lines 277 and 281:
`QtBindingsNotFoundError` and `PythonQtValueError`. -/
inductive ResolveError
  | bindingsNotFound
  | invalidSelection
deriving DecidableEq

/-- The invalid-name check of lines 280-283: `API` must be a key or a
value of `API_NAMES`, otherwise `PythonQtValueError` is raised.
The `ℕ` component threads the number of `find_spec` probes performed. -/
def checkValid (api : PyStr) (probes : ℕ) : Except ResolveError PyStr × ℕ :=
  if api ∈ validNames then (Except.ok api, probes)
  else (Except.error ResolveError.invalidSelection, probes)

/-- The `find_spec` probing loop of the `auto` branch (lines 272-277):

```python
for module in modules:
    if importlib.util.find_spec(module) is not None:
        API = module.lower()
        break
    else:
        raise QtBindingsNotFoundError
```

The `else: raise` is attached to the `if`, not to the `for`: each
iteration either selects the current candidate and breaks, or raises,
so no iteration past the first one ever happens.  Returns the selected
api name (`none` when the loop body never ran, leaving `API` unchanged)
paired with the number of `find_spec` calls made. -/
def autoFindSpec (w : World) : List Binding → Except ResolveError (Option PyStr) × ℕ
  | [] => (Except.ok none, 0)
  | b :: _ =>
    if w.importable b then (Except.ok (some (apiKey b)), 1)
    else (Except.error ResolveError.bindingsNotFound, 1)

/-- Binding resolution, lines 261-283 of `__init__.py`:

* line 262: `API = API_.lower()`;
* lines 263-264: if `os.path.split(sys.argv[0])[1] == "spyder"`,
  `API = "pyqt5"` (the `spyder` flag below);
* lines 266-270: if `API == "auto"`, scan `modules` in priority order
  and select the first whose library is already in `sys.modules`;
* lines 271-277: otherwise run the `find_spec` loop (`autoFindSpec`);
* lines 280-283: reject an `API` outside `API_NAMES` keys and values.

The result is either a fatal `ResolveError` or the resolved api name,
paired with the number of `find_spec` probes performed.  The actual
imports of the chosen binding (lines 293-368) happen afterwards and
only when this stage returns without raising. -/
def resolveAPI (requested : PyStr) (spyder : Bool) (w : World) :
    Except ResolveError PyStr × ℕ :=
  let api0 := pyLower requested
  let api1 := if spyder then str "pyqt5" else api0
  if api1 = str "auto" then
    match modules.find? w.loaded with
    | some b => checkValid (apiKey b) 0
    | none =>
      match autoFindSpec w modules with
      | (Except.ok (some api), n) => checkValid api n
      | (Except.ok none, n) => checkValid api1 n
      | (Except.error e, n) => (Except.error e, n)
  else checkValid api1 0

/-! ## Config store, posix branch (`__init__.py` lines 111-151)

The persisted state is the file
`~/.config/plasma-workspace/env/QtEnvironment.sh`, modelled as the list
of its lines exactly as `readlines()` yields them (newline terminators
included); `none` stands for an absent file. -/

/-- The match pattern of line 143: `f"export {key}="`. -/
def exportKeyEq (key : PyStr) : PyStr := str "export " ++ key ++ [('=' : Char)]

/-- The line written by `set_env` (lines 144, 147, 149):
`f"export {key}={value}\n"`. -/
def exportLine (key value : PyStr) : PyStr :=
  exportKeyEq key ++ value ++ [('\n' : Char)]

/-- The replace-first-match-or-append loop of `set_env` (lines 140-147):
the first line starting with `export {key}=` is replaced by
`export {key}={value}\n`; if no line matches, the new line is appended. -/
def setLines (key value : PyStr) : List PyStr → List PyStr
  | [] => [exportLine key value]
  | l :: ls =>
    if (exportKeyEq key).isPrefixOf l then exportLine key value :: ls
    else l :: setLines key value ls

/-- `set_env` on posix (lines 136-151), restricted to its effect on the
persisted file: read the lines and run the replace-or-append loop when
the file exists, otherwise create it with the single new line. -/
def set_env_posix (key value : PyStr) : Option (List PyStr) → List PyStr
  | some lines => setLines key value lines
  | none => [exportLine key value]

/-- The parse of one `export ` line at store initialization (line 128):
`key, value = line[7:].strip().split("=")`.  `none` models the
`ValueError` raised when the split does not yield exactly two parts. -/
def parseExportLine (l : PyStr) : Option (PyStr × PyStr) :=
  match splitEq (pyStrip (l.drop 7)) with
  | [k, v] => some (k, v)
  | _ => none

/-- The `orignal_environ` build of lines 122-129: every line starting
with `export ` contributes one dict assignment, in file order; a line
that fails to parse aborts initialization (`none`). -/
def parseEnvFile : List PyStr → Option (List (PyStr × PyStr))
  | [] => some []
  | l :: ls =>
    if (str "export ").isPrefixOf l then
      match parseExportLine l with
      | some kv => (parseEnvFile ls).map (fun e => kv :: e)
      | none => none
    else parseEnvFile ls

/-- Python dict lookup over the assignment list built by
`parseEnvFile`: the LAST assignment of a key wins. -/
def dictGet : List (PyStr × PyStr) → PyStr → Option PyStr
  | [], _ => none
  | kv :: rest, key =>
    match dictGet rest key with
    | some r => some r
    | none => if kv.1 = key then some kv.2 else none

/-- `get_env` on posix (lines 131-134): the in-process environment
(`envp`) wins; otherwise `orignal_environ.get(key, default)`. -/
def get_env_posix (envp : PyStr → Option PyStr) (orig : List (PyStr × PyStr))
    (key dflt : PyStr) : PyStr :=
  match envp key with
  | some v => v
  | none => (dictGet orig key).getD dflt

/-- `set(k, v)` then a fresh store initialization (a new process whose
environment is `envp`) then `get(k, d)`, on posix: rewrite the file,
re-parse it as lines 122-129 do, and read through `get_env`.
`none` models the `ValueError` aborting the fresh initialization. -/
def roundTripPosix (file : Option (List PyStr)) (envp : PyStr → Option PyStr)
    (k v d : PyStr) : Option PyStr :=
  (parseEnvFile (set_env_posix k v file)).map
    (fun orig => get_env_posix envp orig k d)

/-- Well-formedness of one persisted line: if it is an `export ` line,
its `line[7:].strip().split("=")` yields exactly two parts, so the
initialization parse of lines 122-129 does not raise. -/
def parsesOKb (l : PyStr) : Bool :=
  !((str "export ").isPrefixOf l) || (parseExportLine l).isSome

/-- `l` does not bind key `k` in the initialization parse: if it is an
`export ` line, the key it parses to differs from `k`. -/
def noBindb (k l : PyStr) : Bool :=
  !((str "export ").isPrefixOf l) ||
    (match parseExportLine l with
     | some kv => !(kv.1 == k)
     | none => true)

/-- The file's lines interact well with a `set` of key `k`: after the
first line matching `export {k}=` (the one `set_env` replaces), no
later line binds `k`, so the replacement is the last binding of `k`. -/
def setOKb (k : PyStr) : List PyStr → Bool
  | [] => true
  | l :: ls =>
    if (exportKeyEq k).isPrefixOf l then ls.all (noBindb k) else setOKb k ls

/-! ## Config store, nt branch (`__init__.py` lines 67-101)

The persisted state is the registry; `set_env` issues
`setx key value`, which writes the current-user environment key
(`HKEY_CURRENT_USER\Environment`).  `get_env` consults, in order: the
set of keys the process had explicitly redefined at startup
(`python_redefined_keys`, in-process environment wins), the
current-user registry location, the machine registry location, and
finally the in-process environment with a default. -/

/-- The registry effect of `set_env` on nt (lines 96-101):
`setx` updates the current-user environment key.  (The same call also
writes `os.environ[key]`, which does not survive the process.) -/
def set_env_nt (hkcu : PyStr → Option PyStr) (key value : PyStr) :
    PyStr → Option PyStr :=
  fun k => if k = key then some value else hkcu k

/-- `get_env` on nt (lines 80-94).  `redef k = true` models
`k in python_redefined_keys` (such a key is by construction present in
`os.environ`, here `envp`). -/
def get_env_nt (redef : PyStr → Bool) (envp : PyStr → Option PyStr)
    (hkcu hklm : PyStr → Option PyStr) (key dflt : PyStr) : PyStr :=
  if redef key then (envp key).getD dflt
  else
    match hkcu key with
    | some v => v
    | none =>
      match hklm key with
      | some v => v
      | none => (envp key).getD dflt

/-- `set(k, v)` then a fresh process (environment `envp`, redefined-key
set `redef`) then `get(k, d)`, on nt. -/
def roundTripNt (hkcu hklm : PyStr → Option PyStr) (redef : PyStr → Bool)
    (envp : PyStr → Option PyStr) (k v d : PyStr) : PyStr :=
  get_env_nt redef envp (set_env_nt hkcu k v) hklm k d

/-! ## The `scaled` transform (`__init__.py` lines 426-465) -/

/-- `eps = sys.float_info.epsilon` (line 426): the machine epsilon of
binary64, exactly `2 ^ (-52)`. -/
def eps : ℚ := 1 / 2 ^ 52

/-- Python's builtin `round()` with no digits argument: round half to
even, as applied to the exact value of the float argument. -/
def pyRound (q : ℚ) : ℤ :=
  if q - (⌊q⌋ : ℚ) < 1 / 2 then ⌊q⌋
  else if 1 / 2 < q - (⌊q⌋ : ℚ) then ⌊q⌋ + 1
  else if ⌊q⌋ % 2 = 0 then ⌊q⌋ else ⌊q⌋ + 1

/-- Round a real value to the nearest IEEE-754 binary64 float
(round-to-nearest, ties-to-even), returning that float's exact rational
value.  For `q ≠ 0` the binade exponent is `e = ⌊log₂ |q|⌋`, clamped to
`-1022` so the subnormal grid is uniform, and the representable values
near `q` are the multiples of `2 ^ (e - 52)`; the significand is
rounded half-to-even, which is exactly `pyRound`.  The model leaves the
exponent range unbounded above: overflow to infinity (magnitudes
beyond `2 ^ 1024`, where the program's `round` would then raise
`OverflowError`) is not represented, and no claim reaches such
magnitudes. -/
def fl64 (q : ℚ) : ℚ :=
  if q = 0 then 0
  else
    let e := max (Int.log 2 |q|) (-1022)
    (pyRound (q * (2 : ℚ) ^ (52 - e)) : ℚ) * (2 : ℚ) ^ (e - 52)

/-- The Python values `scaled` dispatches on (lines 450-465): `QRect`
(via `getRect()`, four ints), `int`, `tuple`, `list`, and the
pass-through numeric kinds of the final `else` (here `float`).
`gen` is a generator object: the value the tuple branch's generator
expression `(scaled(elt) for elt in obj)` evaluates to, carried with
the elements it yields when consumed. -/
inductive PyVal
  | int (n : ℤ)
  | float (q : ℚ)
  | rect (x y w h : ℤ)
  | tuple (es : List PyVal)
  | list (es : List PyVal)
  | gen (es : List PyVal)

/-- Container-kind discriminator: is the value a Python `tuple`? -/
def isTupleVal : PyVal → Bool
  | PyVal.tuple _ => true
  | _ => false

mutual

/-- `scaled(obj)` (single-argument form, lines 438-465) at an already
resolved scale factor:

* line 448-449: factor exactly 1 returns the input unchanged;
* lines 450-457: `QRect` rebuilt from `round(c * scale + eps)` per
  coordinate, the arithmetic performed in binary64: the int coordinate
  is converted to a float (`fl64 c`, exact for these magnitudes), the
  product rounds (`fl64 (… * scale)`), and the `+ eps` rounds again
  (`fl64 (… + eps)`), where `eps` is absorbed unless the product is
  small;
* lines 458-459: `int(round(obj * scale + eps))`, same binary64
  evaluation order;
* lines 460-461: a `tuple` yields the generator expression
  `(scaled(elt) for elt in obj)` — a generator object, not a tuple;
* lines 462-463: a `list` yields `[scaled(elt) for elt in obj]`;
* lines 464-465: anything else is `obj * scale`; for a `float` that is
  one rounded binary64 multiplication, while a generator has no `*` so
  the call raises `TypeError` (`none`).

`scale` (and a `float` payload) is itself a binary64 value, supplied as
its exact rational value. -/
def scaledVal (scale : ℚ) (obj : PyVal) : Option PyVal :=
  if scale = 1 then some obj
  else
    match obj with
    | PyVal.rect x y w h =>
      some (PyVal.rect (pyRound (fl64 (fl64 (fl64 (x : ℚ) * scale) + eps)))
        (pyRound (fl64 (fl64 (fl64 (y : ℚ) * scale) + eps)))
        (pyRound (fl64 (fl64 (fl64 (w : ℚ) * scale) + eps)))
        (pyRound (fl64 (fl64 (fl64 (h : ℚ) * scale) + eps))))
    | PyVal.int n =>
      some (PyVal.int (pyRound (fl64 (fl64 (fl64 (n : ℚ) * scale) + eps))))
    | PyVal.tuple es => (scaledElems scale es).map PyVal.gen
    | PyVal.list es => (scaledElems scale es).map PyVal.list
    | PyVal.float q => some (PyVal.float (fl64 (q * scale)))
    | PyVal.gen _ => none

/-- Element-wise image of `scaled` over the members of a sequence
(the comprehensions of lines 461 and 463). -/
def scaledElems (scale : ℚ) : List PyVal → Option (List PyVal)
  | [] => some []
  | e :: es =>
    match scaledVal scale e, scaledElems scale es with
    | some v, some vs => some (v :: vs)
    | _, _ => none

end

/-! ## `QT_SCALE` auto-resolution cache (lines 429-443)

When `QT_SCALE` is `"auto"` the module-level cache starts as `None`
(lines 430-431); the first `scaled` call resolves it from the primary
display (lines 440-443) and every later call reuses the cached number. -/

/-- One execution of lines 440-443 inside `scaled`: given the primary
display's logical DPI and the cached state, produce the factor used,
the new cached state, and the number of display queries performed. -/
def resolveScale (dpi : ℚ) : Option ℚ → ℚ × Option ℚ × ℕ
  | none => (dpi / 192, some (dpi / 192), 1)
  | some s => (s, some s, 0)

/-- A full `scaled(obj)` call including factor resolution. -/
def scaledCall (dpi : ℚ) (st : Option ℚ) (obj : PyVal) :
    Option PyVal × Option ℚ × ℕ :=
  match resolveScale dpi st with
  | (s, st2, q) => (scaledVal s obj, st2, q)

/-- Total number of display queries over `n` successive `scaled` calls
starting from cache state `st`. -/
def scaleQueries (dpi : ℚ) : Option ℚ → ℕ → ℕ
  | _, 0 => 0
  | st, Nat.succ n =>
    match resolveScale dpi st with
    | (_, st2, q) => q + scaleQueries dpi st2 n

/-! ## Helper lemmas -/

/-- `pyRound` at a value strictly below the midpoint rounds down. -/
theorem pyRound_eq_of_lt_half {q : ℚ} {n : ℤ} (h1 : (n : ℚ) ≤ q)
    (h2 : q < (n : ℚ) + 1 / 2) : pyRound q = n := by
  have hf : ⌊q⌋ = n := Int.floor_eq_iff.mpr ⟨h1, by linarith⟩
  simp only [pyRound, hf]
  rw [if_pos (by linarith)]

/-- `pyRound` at a value strictly above the midpoint rounds up. -/
theorem pyRound_eq_of_gt_half {q : ℚ} {n : ℤ} (h1 : (n : ℚ) + 1 / 2 < q)
    (h2 : q < (n : ℚ) + 1) : pyRound q = n + 1 := by
  have hf : ⌊q⌋ = n := Int.floor_eq_iff.mpr ⟨by linarith, by linarith⟩
  simp only [pyRound, hf]
  rw [if_neg (by linarith), if_pos (by linarith)]

/-- `pyRound` at an exact tie above an even integer rounds to it. -/
theorem pyRound_tie_even {m : ℤ} (hm : m % 2 = 0) : pyRound ((m : ℚ) + 1 / 2) = m := by
  have hf : ⌊(m : ℚ) + 1 / 2⌋ = m := by
    rw [Int.floor_eq_iff]
    constructor
    · linarith
    · linarith
  have hsub : (m : ℚ) + 1 / 2 - (⌊(m : ℚ) + 1 / 2⌋ : ℚ) = 1 / 2 := by
    rw [hf]
    ring
  simp only [pyRound, hsub, hf]
  norm_num [hm]

/-- `Int.log 2` is characterized by its binade bracketing. -/
theorem int_log2_eq {q : ℚ} {e : ℤ} (hq : 0 < q)
    (h1 : (2 : ℚ) ^ e ≤ q) (h2 : q < (2 : ℚ) ^ (e + 1)) : Int.log 2 q = e := by
  have hL1 : ((2 : ℕ) : ℚ) ^ Int.log 2 q ≤ q := Int.zpow_log_le_self (by norm_num) hq
  have hL2 : q < ((2 : ℕ) : ℚ) ^ (Int.log 2 q + 1) := Int.lt_zpow_succ_log_self (by norm_num) q
  have hcast : ((2 : ℕ) : ℚ) = (2 : ℚ) := by norm_num
  rw [hcast] at hL1 hL2
  by_contra hne
  rcases lt_or_gt_of_ne hne with hlt | hgt
  · have hle : (2 : ℚ) ^ (Int.log 2 q + 1) ≤ (2 : ℚ) ^ e :=
      zpow_le_zpow_right₀ (by norm_num) (by omega)
    linarith
  · have hle : (2 : ℚ) ^ (e + 1) ≤ (2 : ℚ) ^ (Int.log 2 q) :=
      zpow_le_zpow_right₀ (by norm_num) (by omega)
    linarith

/-- Evaluate `fl64` at a positive value from its binade bracketing, the
rounded significand, and the recombination of the result. -/
theorem fl64_eval {q r : ℚ} {e m : ℤ} (hq : 0 < q) (he : (-1022 : ℤ) ≤ e)
    (h1 : (2 : ℚ) ^ e ≤ q) (h2 : q < (2 : ℚ) ^ (e + 1))
    (hm : pyRound (q * (2 : ℚ) ^ (52 - e)) = m)
    (hr : (m : ℚ) * (2 : ℚ) ^ (e - 52) = r) : fl64 q = r := by
  have hq0 : q ≠ 0 := ne_of_gt hq
  have hlog : Int.log 2 |q| = e := by
    rw [abs_of_pos hq]
    exact int_log2_eq hq h1 h2
  unfold fl64
  rw [if_neg hq0]
  simp only [hlog, max_eq_left he]
  rw [hm]
  exact hr

/-- The `int` branch of `scaled` at a factor other than 1
(lines 458-459), as one equation. -/
theorem scaledVal_int (n : ℤ) (g : ℚ) (h : g ≠ 1) :
    scaledVal g (PyVal.int n)
      = some (PyVal.int (pyRound (fl64 (fl64 (fl64 (n : ℚ) * g) + eps)))) := by
  simp [scaledVal, h]

/-- The `tuple` branch of `scaled` at a factor other than 1 (line 461). -/
theorem scaledVal_tuple (g : ℚ) (l : List PyVal) (h : g ≠ 1) :
    scaledVal g (PyVal.tuple l) = (scaledElems g l).map PyVal.gen := by
  simp [scaledVal, h]

/-- The `list` branch of `scaled` at a factor other than 1 (line 463). -/
theorem scaledVal_list (g : ℚ) (l : List PyVal) (h : g ≠ 1) :
    scaledVal g (PyVal.list l) = (scaledElems g l).map PyVal.list := by
  simp [scaledVal, h]

/-- A cached scale factor is never re-queried, over any number of calls. -/
theorem scaleQueries_some (dpi s : ℚ) : ∀ n, scaleQueries dpi (some s) n = 0
  | 0 => rfl
  | n + 1 => by simp [scaleQueries, resolveScale, scaleQueries_some dpi s n]

/-- A line list whose every `export ` line parses yields a successful
`orignal_environ` build. -/
theorem parseEnvFile_isSome (lines : List PyStr) (h : lines.all parsesOKb = true) :
    ∃ e, parseEnvFile lines = some e := by
  induction lines with
  | nil => exact ⟨[], rfl⟩
  | cons l ls ih =>
    rw [List.all_cons, Bool.and_eq_true] at h
    obtain ⟨e, he⟩ := ih h.2
    rcases Bool.eq_false_or_eq_true ((str "export ").isPrefixOf l) with hp | hp
    · have hsome : (parseExportLine l).isSome = true := by
        have hl := h.1
        unfold parsesOKb at hl
        rw [hp] at hl
        simpa using hl
      obtain ⟨kv, hkv⟩ := Option.isSome_iff_exists.mp hsome
      exact ⟨kv :: e, by simp [parseEnvFile, hp, hkv, he]⟩
    · exact ⟨e, by simp [parseEnvFile, hp, he]⟩

/-- If no line of the file binds key `k`, the parsed environ has no
entry for `k`. -/
theorem dictGet_none_of_noBind (k : PyStr) :
    ∀ (lines : List PyStr) (e : List (PyStr × PyStr)),
      lines.all (noBindb k) = true → parseEnvFile lines = some e →
      dictGet e k = none := by
  intro lines
  induction lines with
  | nil => intro e _ hp; cases hp; rfl
  | cons l ls ih =>
    intro e hall hp
    rw [List.all_cons, Bool.and_eq_true] at hall
    rcases Bool.eq_false_or_eq_true ((str "export ").isPrefixOf l) with hpre | hpre
    · cases hkv : parseExportLine l with
      | none =>
        rw [parseEnvFile] at hp
        simp [hpre, hkv] at hp
      | some kv =>
        rw [parseEnvFile] at hp
        simp only [hpre, if_true] at hp
        rw [hkv] at hp
        cases he : parseEnvFile ls with
        | none => rw [he] at hp; cases hp
        | some e2 =>
          rw [he] at hp
          simp only [Option.map_some] at hp
          have hne : kv.1 ≠ k := by
            have hl := hall.1
            unfold noBindb at hl
            rw [hpre, hkv] at hl
            simpa using hl
          cases hp
          simp [dictGet, ih e2 hall.2 he, hne]
    · rw [parseEnvFile] at hp
      simp only [hpre, Bool.false_eq_true, if_false] at hp
      exact ih e hall.2 hp

/-- After `set_env` rewrites a well-formed file, the fresh parse
succeeds and its dict maps `k` to the value just written. -/
theorem setLines_parse_get (k v : PyStr)
    (hw : (str "export ").isPrefixOf (exportLine k v) = true)
    (hnew : parseExportLine (exportLine k v) = some (k, v)) :
    ∀ lines, lines.all parsesOKb = true → setOKb k lines = true →
      ∃ e, parseEnvFile (setLines k v lines) = some e ∧ dictGet e k = some v := by
  intro lines
  induction lines with
  | nil =>
    intro _ _
    exact ⟨[(k, v)], by simp [setLines, parseEnvFile, hw, hnew], by simp [dictGet]⟩
  | cons l ls ih =>
    intro hall hok
    rw [List.all_cons, Bool.and_eq_true] at hall
    rcases Bool.eq_false_or_eq_true ((exportKeyEq k).isPrefixOf l) with hm | hm
    · rw [setOKb] at hok
      simp only [hm, if_true] at hok
      obtain ⟨e, he⟩ := parseEnvFile_isSome ls hall.2
      refine ⟨(k, v) :: e, ?_, ?_⟩
      · rw [setLines]
        simp only [hm, if_true]
        rw [parseEnvFile]
        simp only [hw, if_true]
        rw [hnew, he]
        rfl
      · simp [dictGet, dictGet_none_of_noBind k ls e hok he]
    · rw [setOKb] at hok
      simp only [hm, Bool.false_eq_true, if_false] at hok
      obtain ⟨e, he, hg⟩ := ih hall.2 hok
      rcases Bool.eq_false_or_eq_true ((str "export ").isPrefixOf l) with hpre | hpre
      · have hsome : (parseExportLine l).isSome = true := by
          have hl := hall.1
          unfold parsesOKb at hl
          rw [hpre] at hl
          simpa using hl
        obtain ⟨kv, hkv⟩ := Option.isSome_iff_exists.mp hsome
        refine ⟨kv :: e, ?_, ?_⟩
        · rw [setLines]
          simp only [hm, Bool.false_eq_true, if_false]
          rw [parseEnvFile]
          simp only [hpre, if_true]
          rw [hkv, he]
          rfl
        · simp [dictGet, hg]
      · refine ⟨e, ?_, hg⟩
        rw [setLines]
        simp only [hm, Bool.false_eq_true, if_false]
        rw [parseEnvFile]
        simp only [hpre, Bool.false_eq_true, if_false]
        exact he

/-! ## Claim theorems -/

/-- C7: For every input object, when the resolved scale factor is
exactly 1, `scaled` returns the input itself unchanged (identity fast
path, lines 448-449) — for integers, rectangles, sequences, and
pass-through numeric types alike. -/
theorem C7_scale_one_identity (obj : PyVal) : scaledVal 1 obj = some obj := by
  cases obj <;> simp [scaledVal]

/-- C8 (counterexample to the claim as stated): the claim reads the
code's `round(v * scale + eps)` as exact real arithmetic, concluding an
upward bias at every `.5` boundary.  The program computes in binary64:
`5 * 0.5 + eps` is `2.5 + 2 ^ (-52)`, which rounds back to `2.5`
(ties-to-even on the sum), and Python's `round(2.5)` is `2` — while the
claim's real-arithmetic formula gives `3` at the same input.  So
`scaled(5)` at factor `1/2` is `2`, not the promised upward-biased
`3`. -/
theorem C8_round_bias_counterexample :
    scaledVal (1 / 2) (PyVal.int 5) = some (PyVal.int 2)
    ∧ pyRound ((5 : ℚ) * (1 / 2) + eps) = 3 := by
  have f5 : fl64 (5 : ℚ) = 5 :=
    fl64_eval (e := 2) (m := 5 * 2 ^ 50) (by norm_num) (by norm_num) (by norm_num)
      (by norm_num) (pyRound_eq_of_lt_half (by norm_num) (by norm_num)) (by norm_num)
  have f52m : fl64 ((5 : ℚ) * (1 / 2)) = 5 / 2 :=
    fl64_eval (e := 1) (m := 5 * 2 ^ 50) (by norm_num) (by norm_num) (by norm_num)
      (by norm_num) (pyRound_eq_of_lt_half (by norm_num) (by norm_num)) (by norm_num)
  have f52e : fl64 ((5 : ℚ) / 2 + eps) = 5 / 2 :=
    fl64_eval (e := 1) (m := 5 * 2 ^ 50) (by norm_num [eps]) (by norm_num)
      (by norm_num [eps]) (by norm_num [eps])
      (by
        have h := pyRound_tie_even (m := 5 * 2 ^ 50) (by decide)
        have harg : ((5 : ℚ) / 2 + eps) * (2 : ℚ) ^ ((52 : ℤ) - 1)
            = ((5 * 2 ^ 50 : ℤ) : ℚ) + 1 / 2 := by
          norm_num [eps]
        rw [harg]
        exact h)
      (by norm_num)
  have p52 : pyRound ((5 : ℚ) / 2) = 2 := by
    have h := pyRound_tie_even (m := 2) (by decide)
    have harg : ((5 : ℚ) / 2) = ((2 : ℤ) : ℚ) + 1 / 2 := by norm_num
    rw [harg]
    exact h
  constructor
  · rw [scaledVal_int 5 (1 / 2) (by norm_num)]
    push_cast
    rw [f5, f52m, f52e, p52]
  · have h := pyRound_eq_of_gt_half (q := (5 : ℚ) * (1 / 2) + eps) (n := 2)
      (by norm_num [eps]) (by norm_num [eps])
    simpa using h

/-- C8 (amended): for every integer dimension `v` and resolved factor
`f ≠ 1`, `scaled(v)` is `int(round(v * f + eps))` evaluated in binary64
(each operation rounded to nearest, ties-to-even), and the result is an
integer value; factor 2 maps 10 to 20 and factor 3/2 maps 10 to 15.
The `eps` term biases a `.5` boundary upward only while the product is
small enough for `eps` to survive the addition: `scaled(1)` at factor
1/2 is 1 (not the ties-to-even 0), but once the product's magnitude
reaches 2 the `eps` is absorbed and the boundary follows ties-to-even:
`scaled(5)` at factor 1/2 is 2. -/
theorem C8_int_round_binary64 (v : ℤ) (f : ℚ) (hf : f ≠ 1) :
    scaledVal f (PyVal.int v)
      = some (PyVal.int (pyRound (fl64 (fl64 (fl64 (v : ℚ) * f) + eps))))
    ∧ scaledVal 2 (PyVal.int 10) = some (PyVal.int 20)
    ∧ scaledVal (3 / 2) (PyVal.int 10) = some (PyVal.int 15)
    ∧ scaledVal (1 / 2) (PyVal.int 1) = some (PyVal.int 1)
    ∧ scaledVal (1 / 2) (PyVal.int 5) = some (PyVal.int 2) := by
  have f10 : fl64 (10 : ℚ) = 10 :=
    fl64_eval (e := 3) (m := 10 * 2 ^ 49) (by norm_num) (by norm_num) (by norm_num)
      (by norm_num) (pyRound_eq_of_lt_half (by norm_num) (by norm_num)) (by norm_num)
  have f20m : fl64 ((10 : ℚ) * 2) = 20 :=
    fl64_eval (e := 4) (m := 20 * 2 ^ 48) (by norm_num) (by norm_num) (by norm_num)
      (by norm_num) (pyRound_eq_of_lt_half (by norm_num) (by norm_num)) (by norm_num)
  have f20e : fl64 ((20 : ℚ) + eps) = 20 :=
    fl64_eval (e := 4) (m := 20 * 2 ^ 48) (by norm_num [eps]) (by norm_num)
      (by norm_num [eps]) (by norm_num [eps])
      (pyRound_eq_of_lt_half (by norm_num [eps]) (by norm_num [eps])) (by norm_num)
  have p20 : pyRound ((20 : ℚ)) = 20 :=
    pyRound_eq_of_lt_half (by norm_num) (by norm_num)
  have f15m : fl64 ((10 : ℚ) * (3 / 2)) = 15 :=
    fl64_eval (e := 3) (m := 15 * 2 ^ 49) (by norm_num) (by norm_num) (by norm_num)
      (by norm_num) (pyRound_eq_of_lt_half (by norm_num) (by norm_num)) (by norm_num)
  have f15e : fl64 ((15 : ℚ) + eps) = 15 :=
    fl64_eval (e := 3) (m := 15 * 2 ^ 49) (by norm_num [eps]) (by norm_num)
      (by norm_num [eps]) (by norm_num [eps])
      (pyRound_eq_of_lt_half (by norm_num [eps]) (by norm_num [eps])) (by norm_num)
  have p15 : pyRound ((15 : ℚ)) = 15 :=
    pyRound_eq_of_lt_half (by norm_num) (by norm_num)
  have f1 : fl64 (1 : ℚ) = 1 :=
    fl64_eval (e := 0) (m := 2 ^ 52) (by norm_num) (by norm_num) (by norm_num)
      (by norm_num) (pyRound_eq_of_lt_half (by norm_num) (by norm_num)) (by norm_num)
  have f12m : fl64 ((1 : ℚ) * (1 / 2)) = 1 / 2 :=
    fl64_eval (e := -1) (m := 2 ^ 52) (by norm_num) (by norm_num) (by norm_num)
      (by norm_num) (pyRound_eq_of_lt_half (by norm_num) (by norm_num)) (by norm_num)
  have f12e : fl64 ((1 : ℚ) / 2 + eps) = 1 / 2 + eps :=
    fl64_eval (e := -1) (m := 2 ^ 52 + 2) (by norm_num [eps]) (by norm_num)
      (by norm_num [eps]) (by norm_num [eps])
      (pyRound_eq_of_lt_half (by norm_num [eps]) (by norm_num [eps])) (by norm_num [eps])
  have p12 : pyRound ((1 : ℚ) / 2 + eps) = 1 := by
    have h := pyRound_eq_of_gt_half (q := (1 : ℚ) / 2 + eps) (n := 0)
      (by norm_num [eps]) (by norm_num [eps])
    simpa using h
  have f5 : fl64 (5 : ℚ) = 5 :=
    fl64_eval (e := 2) (m := 5 * 2 ^ 50) (by norm_num) (by norm_num) (by norm_num)
      (by norm_num) (pyRound_eq_of_lt_half (by norm_num) (by norm_num)) (by norm_num)
  have f52m : fl64 ((5 : ℚ) * (1 / 2)) = 5 / 2 :=
    fl64_eval (e := 1) (m := 5 * 2 ^ 50) (by norm_num) (by norm_num) (by norm_num)
      (by norm_num) (pyRound_eq_of_lt_half (by norm_num) (by norm_num)) (by norm_num)
  have f52e : fl64 ((5 : ℚ) / 2 + eps) = 5 / 2 :=
    fl64_eval (e := 1) (m := 5 * 2 ^ 50) (by norm_num [eps]) (by norm_num)
      (by norm_num [eps]) (by norm_num [eps])
      (by
        have h := pyRound_tie_even (m := 5 * 2 ^ 50) (by decide)
        have harg : ((5 : ℚ) / 2 + eps) * (2 : ℚ) ^ ((52 : ℤ) - 1)
            = ((5 * 2 ^ 50 : ℤ) : ℚ) + 1 / 2 := by
          norm_num [eps]
        rw [harg]
        exact h)
      (by norm_num)
  have p52 : pyRound ((5 : ℚ) / 2) = 2 := by
    have h := pyRound_tie_even (m := 2) (by decide)
    have harg : ((5 : ℚ) / 2) = ((2 : ℤ) : ℚ) + 1 / 2 := by norm_num
    rw [harg]
    exact h
  refine ⟨scaledVal_int v f hf, ?_, ?_, ?_, ?_⟩
  · rw [scaledVal_int 10 2 (by norm_num)]
    push_cast
    rw [f10, f20m, f20e, p20]
  · rw [scaledVal_int 10 (3 / 2) (by norm_num)]
    push_cast
    rw [f10, f15m, f15e, p15]
  · rw [scaledVal_int 1 (1 / 2) (by norm_num)]
    push_cast
    rw [f1, f12m, f12e, p12]
  · rw [scaledVal_int 5 (1 / 2) (by norm_num)]
    push_cast
    rw [f5, f52m, f52e, p52]

/-- Witness for C8 (amended) at the concrete input `v = 7`, `f = 3`. -/
theorem C8_witness :
    scaledVal 3 (PyVal.int 7)
      = some (PyVal.int (pyRound (fl64 (fl64 (fl64 ((7 : ℤ) : ℚ) * 3) + eps)))) :=
  (C8_int_round_binary64 7 3 (by norm_num)).1

/-- C1: the claim says `scaled` on a tuple returns a fixed-size tuple
of the element-wise scaled values.  The code's tuple branch (line 461)
is the generator expression `(scaled(elt) for elt in obj)`, so the
value returned is a generator object yielding the scaled elements, not
a tuple: at factor 2, `(10, 20, 30, 40)` gives a generator yielding
20, 40, 60, 80 — the returned container is not a tuple (its tuple
discriminator is `false`), while the parallel list branch (line 463)
does preserve the list container kind. -/
theorem C1_tuple_scaled_is_generator :
    scaledVal 2 (PyVal.tuple [PyVal.int 10, PyVal.int 20, PyVal.int 30, PyVal.int 40])
      = some (PyVal.gen [PyVal.int 20, PyVal.int 40, PyVal.int 60, PyVal.int 80])
    ∧ (scaledVal 2 (PyVal.tuple [PyVal.int 10, PyVal.int 20, PyVal.int 30,
        PyVal.int 40])).map isTupleVal = some false
    ∧ scaledVal 2 (PyVal.list [PyVal.int 10, PyVal.int 20, PyVal.int 30, PyVal.int 40])
      = some (PyVal.list [PyVal.int 20, PyVal.int 40, PyVal.int 60, PyVal.int 80]) := by
  have h2 : (2 : ℚ) ≠ 1 := by norm_num
  have f10 : fl64 (10 : ℚ) = 10 :=
    fl64_eval (e := 3) (m := 10 * 2 ^ 49) (by norm_num) (by norm_num) (by norm_num)
      (by norm_num) (pyRound_eq_of_lt_half (by norm_num) (by norm_num)) (by norm_num)
  have f20 : fl64 (20 : ℚ) = 20 :=
    fl64_eval (e := 4) (m := 20 * 2 ^ 48) (by norm_num) (by norm_num) (by norm_num)
      (by norm_num) (pyRound_eq_of_lt_half (by norm_num) (by norm_num)) (by norm_num)
  have f30 : fl64 (30 : ℚ) = 30 :=
    fl64_eval (e := 4) (m := 30 * 2 ^ 48) (by norm_num) (by norm_num) (by norm_num)
      (by norm_num) (pyRound_eq_of_lt_half (by norm_num) (by norm_num)) (by norm_num)
  have f40 : fl64 (40 : ℚ) = 40 :=
    fl64_eval (e := 5) (m := 40 * 2 ^ 47) (by norm_num) (by norm_num) (by norm_num)
      (by norm_num) (pyRound_eq_of_lt_half (by norm_num) (by norm_num)) (by norm_num)
  have f20m : fl64 ((10 : ℚ) * 2) = 20 :=
    fl64_eval (e := 4) (m := 20 * 2 ^ 48) (by norm_num) (by norm_num) (by norm_num)
      (by norm_num) (pyRound_eq_of_lt_half (by norm_num) (by norm_num)) (by norm_num)
  have f40m : fl64 ((20 : ℚ) * 2) = 40 :=
    fl64_eval (e := 5) (m := 40 * 2 ^ 47) (by norm_num) (by norm_num) (by norm_num)
      (by norm_num) (pyRound_eq_of_lt_half (by norm_num) (by norm_num)) (by norm_num)
  have f60m : fl64 ((30 : ℚ) * 2) = 60 :=
    fl64_eval (e := 5) (m := 60 * 2 ^ 47) (by norm_num) (by norm_num) (by norm_num)
      (by norm_num) (pyRound_eq_of_lt_half (by norm_num) (by norm_num)) (by norm_num)
  have f80m : fl64 ((40 : ℚ) * 2) = 80 :=
    fl64_eval (e := 6) (m := 80 * 2 ^ 46) (by norm_num) (by norm_num) (by norm_num)
      (by norm_num) (pyRound_eq_of_lt_half (by norm_num) (by norm_num)) (by norm_num)
  have f20e : fl64 ((20 : ℚ) + eps) = 20 :=
    fl64_eval (e := 4) (m := 20 * 2 ^ 48) (by norm_num [eps]) (by norm_num)
      (by norm_num [eps]) (by norm_num [eps])
      (pyRound_eq_of_lt_half (by norm_num [eps]) (by norm_num [eps])) (by norm_num)
  have f40e : fl64 ((40 : ℚ) + eps) = 40 :=
    fl64_eval (e := 5) (m := 40 * 2 ^ 47) (by norm_num [eps]) (by norm_num)
      (by norm_num [eps]) (by norm_num [eps])
      (pyRound_eq_of_lt_half (by norm_num [eps]) (by norm_num [eps])) (by norm_num)
  have f60e : fl64 ((60 : ℚ) + eps) = 60 :=
    fl64_eval (e := 5) (m := 60 * 2 ^ 47) (by norm_num [eps]) (by norm_num)
      (by norm_num [eps]) (by norm_num [eps])
      (pyRound_eq_of_lt_half (by norm_num [eps]) (by norm_num [eps])) (by norm_num)
  have f80e : fl64 ((80 : ℚ) + eps) = 80 :=
    fl64_eval (e := 6) (m := 80 * 2 ^ 46) (by norm_num [eps]) (by norm_num)
      (by norm_num [eps]) (by norm_num [eps])
      (pyRound_eq_of_lt_half (by norm_num [eps]) (by norm_num [eps])) (by norm_num)
  have p20 : pyRound ((20 : ℚ)) = 20 :=
    pyRound_eq_of_lt_half (by norm_num) (by norm_num)
  have p40 : pyRound ((40 : ℚ)) = 40 :=
    pyRound_eq_of_lt_half (by norm_num) (by norm_num)
  have p60 : pyRound ((60 : ℚ)) = 60 :=
    pyRound_eq_of_lt_half (by norm_num) (by norm_num)
  have p80 : pyRound ((80 : ℚ)) = 80 :=
    pyRound_eq_of_lt_half (by norm_num) (by norm_num)
  have e10 : scaledVal 2 (PyVal.int 10) = some (PyVal.int 20) := by
    rw [scaledVal_int 10 2 h2]
    push_cast
    rw [f10, f20m, f20e, p20]
  have e20 : scaledVal 2 (PyVal.int 20) = some (PyVal.int 40) := by
    rw [scaledVal_int 20 2 h2]
    push_cast
    rw [f20, f40m, f40e, p40]
  have e30 : scaledVal 2 (PyVal.int 30) = some (PyVal.int 60) := by
    rw [scaledVal_int 30 2 h2]
    push_cast
    rw [f30, f60m, f60e, p60]
  have e40 : scaledVal 2 (PyVal.int 40) = some (PyVal.int 80) := by
    rw [scaledVal_int 40 2 h2]
    push_cast
    rw [f40, f80m, f80e, p80]
  have hmain : scaledVal 2
      (PyVal.tuple [PyVal.int 10, PyVal.int 20, PyVal.int 30, PyVal.int 40])
      = some (PyVal.gen [PyVal.int 20, PyVal.int 40, PyVal.int 60, PyVal.int 80]) := by
    rw [scaledVal_tuple 2 _ h2]
    simp [scaledElems, e10, e20, e30, e40]
  refine ⟨hmain, by rw [hmain]; rfl, ?_⟩
  rw [scaledVal_list 2 _ h2]
  simp [scaledElems, e10, e20, e30, e40]

/-- C2: the claim says the `auto` branch selects the first importable
candidate and raises the bindings-not-found error iff none of the four
is importable.  In the code (lines 272-277) the `else: raise` is bound
to the `if`, so with nothing loaded the loop raises as soon as PyQt5 is
not importable: in a world where only PySide2 is importable, resolution
raises `QtBindingsNotFoundError` after a single `find_spec` probe
instead of selecting PySide2. -/
theorem C2_auto_raises_despite_importable_candidate :
    ({ loaded := fun _ => false,
       importable := fun b => b == Binding.pyside2 } : World).importable Binding.pyside2 = true
    ∧ resolveAPI (str "auto") false
        { loaded := fun _ => false, importable := fun b => b == Binding.pyside2 }
      = (Except.error ResolveError.bindingsNotFound, 1) :=
  ⟨rfl, rfl⟩

/-- C3: For every requested name whose lower-casing is neither `auto`
nor in the candidate-name list of line 280, resolution raises the
invalid-selection error (`PythonQtValueError`, lines 280-283) with zero
`find_spec` probes and no fallback, in every world (the spyder override
not applying). -/
theorem C3_invalid_name_rejected (requested : PyStr) (w : World)
    (h : pyLower requested ∉ str "auto" :: validNames) :
    resolveAPI requested false w = (Except.error ResolveError.invalidSelection, 0) := by
  have h1 : ¬ pyLower requested = str "auto" := fun hh =>
    h (by rw [hh]; exact List.mem_cons_self _ _)
  have h2 : pyLower requested ∉ validNames := fun hh => h (List.mem_cons_of_mem _ hh)
  simp [resolveAPI, checkValid, h1, h2]

/-- Witness for C3 at the concrete request `made_up_binding`. -/
theorem C3_witness :
    resolveAPI (str "made_up_binding") false
        { loaded := fun _ => true, importable := fun _ => true }
      = (Except.error ResolveError.invalidSelection, 0) :=
  C3_invalid_name_rejected (str "made_up_binding")
    { loaded := fun _ => true, importable := fun _ => true } (by decide)

/-- C10: whenever the basename of `argv[0]` is `spyder` (lines
263-264), resolution ignores the requested selection entirely — even an
invalid one raises no invalid-selection error — and behaves exactly as
if `pyqt5` had been requested. -/
theorem C10_spyder_override (requested : PyStr) (w : World) :
    resolveAPI requested true w = (Except.ok (str "pyqt5"), 0)
    ∧ resolveAPI requested true w = resolveAPI (str "pyqt5") false w :=
  ⟨rfl, rfl⟩

/-- C9: with scale preference `auto` the cache starts unset; the first
`scaled` call queries the display once and caches `dpi / 192`, and
every later call reuses the cached number with zero display queries:
over `n + 1` successive calls exactly one query happens. -/
theorem C9_auto_scale_queried_once (dpi s : ℚ) (n : ℕ) (obj : PyVal) :
    resolveScale dpi none = (dpi / 192, some (dpi / 192), 1)
    ∧ resolveScale dpi (some s) = (s, some s, 0)
    ∧ (scaledCall dpi (some s) obj).2.2 = 0
    ∧ scaleQueries dpi none (n + 1) = 1 := by
  refine ⟨rfl, rfl, rfl, ?_⟩
  simp [scaleQueries, resolveScale, scaleQueries_some]

/-- C4: with requested `auto`, the loaded-module scan (lines 266-270)
runs before any importability probe, so when exactly one candidate's
library is already loaded it is selected with zero `find_spec` probes —
regardless of which (possibly higher-priority) candidates are
importable. -/
theorem C4_loaded_wins (w : World) (b : Binding)
    (hb : ∀ b', w.loaded b' = true ↔ b' = b) :
    resolveAPI (str "auto") false w = (Except.ok (apiKey b), 0) := by
  have hlow : pyLower (str "auto") = str "auto" := by decide
  have ht : w.loaded b = true := (hb b).mpr rfl
  have hf : ∀ b', b' ≠ b → w.loaded b' = false := by
    intro b' hne
    cases hx : w.loaded b' with
    | false => rfl
    | true => exact absurd ((hb b').mp hx) hne
  have hfind : modules.find? w.loaded = some b := by
    cases b with
    | pyqt5 => simp [modules, List.find?, ht]
    | pyside2 => simp [modules, List.find?, ht, hf Binding.pyqt5 (by decide)]
    | pyqt6 =>
      simp [modules, List.find?, ht, hf Binding.pyqt5 (by decide),
        hf Binding.pyside2 (by decide)]
    | pyside6 =>
      simp [modules, List.find?, ht, hf Binding.pyqt5 (by decide),
        hf Binding.pyside2 (by decide), hf Binding.pyqt6 (by decide)]
  have hvalid : apiKey b ∈ validNames := by cases b <;> decide
  simp [resolveAPI, hlow, hfind, checkValid, hvalid]

/-- Witness for C4: only PySide2 is loaded while the higher-priority
PyQt5 is importable but not loaded; the loaded PySide2 wins. -/
theorem C4_witness :
    ({ loaded := fun x => x == Binding.pyside2,
       importable := fun _ => true } : World).importable Binding.pyqt5 = true
    ∧ resolveAPI (str "auto") false
        { loaded := fun x => x == Binding.pyside2, importable := fun _ => true }
      = (Except.ok (apiKey Binding.pyside2), 0) :=
  ⟨rfl, C4_loaded_wins
    { loaded := fun x => x == Binding.pyside2, importable := fun _ => true }
    Binding.pyside2 (by intro b'; cases b' <;> decide)⟩

/-- C5: on posix, `set(k, v)` rewrites the config file (lines 136-151)
so that: with no prior file, the new file is exactly the one line
`export k=v\n`; when no line starts with `export k=`, all prior lines
are kept in place and order and exactly that one line is appended; when
some line starts with `export k=`, the first such line is replaced by
`export k=v\n` and every other line's content and relative order are
unchanged. -/
theorem C5_set_env_rewrite (k v : PyStr) :
    set_env_posix k v none = [exportLine k v]
    ∧ (∀ lines, (∀ l ∈ lines, (exportKeyEq k).isPrefixOf l = false) →
        set_env_posix k v (some lines) = lines ++ [exportLine k v])
    ∧ (∀ pre l post, (∀ l' ∈ pre, (exportKeyEq k).isPrefixOf l' = false) →
        (exportKeyEq k).isPrefixOf l = true →
        set_env_posix k v (some (pre ++ l :: post)) = pre ++ exportLine k v :: post) := by
  refine ⟨rfl, ?_, ?_⟩
  · intro lines h
    induction lines with
    | nil => rfl
    | cons l ls ih =>
      have hl := h l (List.mem_cons_self l ls)
      have ih' : setLines k v ls = ls ++ [exportLine k v] := by
        simpa [set_env_posix] using ih (fun l' hm => h l' (List.mem_cons_of_mem _ hm))
      simp [set_env_posix, setLines, hl, ih']
  · intro pre l post hpre hl
    induction pre with
    | nil => simp [set_env_posix, setLines, hl]
    | cons l0 pre' ih =>
      have hl0 := hpre l0 (List.mem_cons_self l0 pre')
      have ih' : setLines k v (pre' ++ l :: post) = pre' ++ exportLine k v :: post := by
        simpa [set_env_posix] using ih (fun l' hm => hpre l' (List.mem_cons_of_mem _ hm))
      simp [set_env_posix, setLines, hl0, ih']

/-- Witness for C5: replacing the matching line of a three-line file
keeps the other two lines in place. -/
theorem C5_witness :
    set_env_posix (str "QT_API") (str "pyqt6")
        (some [str "export QT_SCALE=2\n", str "export QT_API=pyqt5\n", str "# note\n"])
      = [str "export QT_SCALE=2\n", str "export QT_API=pyqt6\n", str "# note\n"] := by
  have h := (C5_set_env_rewrite (str "QT_API") (str "pyqt6")).2.2
    [str "export QT_SCALE=2\n"] (str "export QT_API=pyqt5\n") [str "# note\n"]
    (by decide) (by decide)
  exact h.trans (by decide)

/-- C6 (counterexample to the claim as stated): the posix store's fresh
initialization strips each `export ` line with `str.strip()` before
splitting (line 128), so a value with trailing whitespace does not
survive the round trip.  With no prior file, `set("K", "v ")` followed
by a fresh initialization and `get("K", "d")` returns `"v"`, which
differs from the written value `"v "` (and the claim promised `"v "`). -/
theorem C6_roundtrip_counterexample :
    roundTripPosix none (fun _ => none) (str "K") (str "v ") (str "d") = some (str "v")
    ∧ (str "v" == str "v ") = false := by
  constructor
  · decide
  · decide

/-- C6 (amended): `set(k, v)` followed by a fresh store initialization
(whose process environment lacks `k`) and `get(k, d)` returns `v` —
on posix provided the written line parses back to exactly `(k, v)`
(so `k` and `v` contain no `'='`, no newline, and no whitespace that
`strip()` would remove), every pre-existing `export ` line splits into
exactly two parts, and no line after the replaced one rebinds `k`;
on nt unconditionally (given the fresh process neither carries `k` in
its environment nor marks it redefined). -/
theorem C6_roundtrip_amended (k v d : PyStr) (file : Option (List PyStr))
    (envp hkcu hklm : PyStr → Option PyStr) (redef : PyStr → Bool)
    (henv : envp k = none)
    (hw : (str "export ").isPrefixOf (exportLine k v) = true)
    (hnew : parseExportLine (exportLine k v) = some (k, v))
    (hfile : ∀ lines, file = some lines →
      lines.all parsesOKb = true ∧ setOKb k lines = true)
    (hredef : redef k = false) :
    roundTripPosix file envp k v d = some v
    ∧ roundTripNt hkcu hklm redef envp k v d = v := by
  constructor
  · have hmain : ∃ e, parseEnvFile (set_env_posix k v file) = some e
        ∧ dictGet e k = some v := by
      cases file with
      | none => exact setLines_parse_get k v hw hnew [] rfl rfl
      | some lines =>
        obtain ⟨ha, hb⟩ := hfile lines rfl
        exact setLines_parse_get k v hw hnew lines ha hb
    obtain ⟨e, he, hg⟩ := hmain
    simp [roundTripPosix, he, get_env_posix, henv, hg]
  · simp [roundTripNt, get_env_nt, hredef, set_env_nt]

/-- Witness for C6 (amended) at a concrete two-line file. -/
theorem C6_witness :
    roundTripPosix (some [str "export QT_SCALE=2\n", str "export QT_API=pyqt5\n"])
        (fun _ => none) (str "QT_API") (str "pyqt6") (str "auto") = some (str "pyqt6")
    ∧ roundTripNt (fun _ => none) (fun _ => none) (fun _ => false) (fun _ => none)
        (str "QT_API") (str "pyqt6") (str "auto") = str "pyqt6" :=
  C6_roundtrip_amended (str "QT_API") (str "pyqt6") (str "auto")
    (some [str "export QT_SCALE=2\n", str "export QT_API=pyqt5\n"])
    (fun _ => none) (fun _ => none) (fun _ => none) (fun _ => false)
    rfl (by decide) (by decide)
    (fun lines h => by
      injection h with h2
      subst h2
      exact ⟨by decide, by decide⟩)
    rfl
